import Mathlib

/-!
Shallow embedding of `.github/scripts/generate-star-history.py`.

The script fetches the stargazer history of a fixed list of GitHub
repositories (paginated API calls), converts the collected star
timestamps into a cumulative (timestamp, count) series, and renders all
series into one SVG chart written to a fixed output path.

Network responses are modelled as an oracle `Nat → Response` (page
number to HTTP response); the file system as an explicit record of
directories and files; `print` calls as an accumulated list of log
events.  Python exceptions are modelled with `Except`.
-/

namespace StarHistory

/-- Timestamp as produced by `datetime.strptime(s, "%Y-%m-%dT%H:%M:%SZ")`:
six integer fields. -/
structure DateTime where
  year : Nat
  month : Nat
  day : Nat
  hour : Nat
  minute : Nat
  second : Nat
deriving DecidableEq

/-- Python `datetime` comparison: lexicographic on
(year, month, day, hour, minute, second). -/
def DateTime.le (a b : DateTime) : Prop :=
  a.year < b.year ∨ (a.year = b.year ∧
    (a.month < b.month ∨ (a.month = b.month ∧
      (a.day < b.day ∨ (a.day = b.day ∧
        (a.hour < b.hour ∨ (a.hour = b.hour ∧
          (a.minute < b.minute ∨ (a.minute = b.minute ∧
            a.second ≤ b.second)))))))))

/-- Strict version of `DateTime.le`. -/
def DateTime.lt (a b : DateTime) : Prop :=
  a.year < b.year ∨ (a.year = b.year ∧
    (a.month < b.month ∨ (a.month = b.month ∧
      (a.day < b.day ∨ (a.day = b.day ∧
        (a.hour < b.hour ∨ (a.hour = b.hour ∧
          (a.minute < b.minute ∨ (a.minute = b.minute ∧
            a.second < b.second)))))))))

instance : DecidableRel DateTime.le := fun a b => by
  unfold DateTime.le; infer_instance

instance : DecidableRel DateTime.lt := fun a b => by
  unfold DateTime.lt; infer_instance

instance : IsTotal DateTime DateTime.le :=
  ⟨fun a b => by unfold DateTime.le; omega⟩

instance : IsTrans DateTime DateTime.le :=
  ⟨fun a b c => by unfold DateTime.le; omega⟩

theorem DateTime.le_of_lt {a b : DateTime} (h : DateTime.lt a b) :
    DateTime.le a b := by
  unfold DateTime.lt at h; unfold DateTime.le; omega

theorem DateTime.lt_trans {a b c : DateTime} (h1 : DateTime.lt a b)
    (h2 : DateTime.lt b c) : DateTime.lt a c := by
  unfold DateTime.lt at *; omega

theorem DateTime.not_le_of_lt {a b : DateTime} (h : DateTime.lt a b) :
    ¬ DateTime.le b a := by
  unfold DateTime.lt at h; unfold DateTime.le; omega

/-- Numeric value of a run of decimal digit characters. -/
def natOfDigits (ds : List Char) : Nat :=
  ds.foldl (fun a c => a * 10 + (c.toNat - 48)) 0

/-- Consume one expected literal character. -/
def expectChar (c : Char) : List Char → Option (List Char)
  | x :: xs => if x = c then some xs else none
  | [] => none

/-- Parse a numeric field of one or two digits whose value must lie in
[lo, hi], as CPython's `_strptime` regexes accept for `%m`, `%d`, `%H`,
`%M`, `%S` when the field is followed by a non-digit literal (a maximal
run of one or two digits whose value fits the directive's range). -/
def field12 (lo hi : Nat) (cs : List Char) : Option (Nat × List Char) :=
  let p := cs.span Char.isDigit
  let v := natOfDigits p.1
  if (p.1.length = 1 ∨ p.1.length = 2) ∧ lo ≤ v ∧ v ≤ hi then
    some (v, p.2)
  else none

/-- Whether `y` is a leap year, per the Gregorian rule used by
`datetime`. -/
def isLeapYear (y : Nat) : Bool :=
  y % 4 = 0 && (y % 100 ≠ 0 || y % 400 = 0)

/-- Number of days in the given month of the given year. -/
def daysInMonth (y m : Nat) : Nat :=
  if m = 2 then (if isLeapYear y then 29 else 28)
  else if m = 4 ∨ m = 6 ∨ m = 9 ∨ m = 11 then 30
  else 31

/-- Model of `datetime.strptime(s, "%Y-%m-%dT%H:%M:%SZ")`: `%Y` is
exactly four digits; `%m`, `%d`, `%H`, `%M`, `%S` are one or two digits
in the regex ranges 1-12, 1-31, 0-23, 0-59, 0-61; the literal
separators must match and the whole string must be consumed; the final
`datetime` construction additionally requires year ≥ 1, day within the
month's length, and second ≤ 59.  Returns `none` where Python raises
`ValueError`. -/
def strptime (s : String) : Option DateTime := do
  let cs := s.toList
  let py := cs.span Char.isDigit
  if py.1.length ≠ 4 then none else do
  let y := natOfDigits py.1
  let r1 ← expectChar '-' py.2
  let (m, r2) ← field12 1 12 r1
  let r3 ← expectChar '-' r2
  let (d, r4) ← field12 1 31 r3
  let r5 ← expectChar 'T' r4
  let (h, r6) ← field12 0 23 r5
  let r7 ← expectChar ':' r6
  let (mi, r8) ← field12 0 59 r7
  let r9 ← expectChar ':' r8
  let (sec, r10) ← field12 0 61 r9
  let r11 ← expectChar 'Z' r10
  if r11 = [] ∧ 1 ≤ y ∧ d ≤ daysInMonth y m ∧ sec ≤ 59 then
    some ⟨y, m, d, h, mi, sec⟩
  else none

/-- Convert collected star timestamps to the cumulative series:
`stars.sort()` followed by
`[(date, idx + 1) for idx, date in enumerate(stars)]`.  Python's sort
is a stable sort by `datetime` order; a stable sort for a total
preorder has a unique output, so insertion sort is extensionally the
same function. -/
def toCumulative (stars : List DateTime) : List (DateTime × Nat) :=
  (List.insertionSort DateTime.le stars).enum.map fun p => (p.2, p.1 + 1)

/-- One element of a stargazer page: a JSON object that may or may not
carry the "starred_at" key (`none` models a missing key, on which
Python raises `KeyError`). -/
structure Item where
  starred_at : Option String
deriving DecidableEq

/-- Body of an HTTP response as seen by `response.json()`: either not
valid JSON (Python raises `JSONDecodeError`) or a list of items. -/
inductive Body where
  | invalid : Body
  | items : List Item → Body
deriving DecidableEq

/-- An HTTP response: status code, parsed body, raw text (used only in
the error log). -/
structure Response where
  status_code : Nat
  body : Body
  text : String
deriving DecidableEq

/-- One request issued by `requests.get`: URL, query parameters and the
headers that the script constructs. -/
structure Request where
  url : String
  page : Nat
  per_page : Nat
  accept : String
  authorization : Option String
deriving DecidableEq

/-- Events printed to the console by the script, one constructor per
`print` statement that the claims mention. -/
inductive LogEntry where
  | fetching (repo : String)
  | errorStatus (repo : String) (status : Nat)
  | responseBody (text : String)
  | fetchedPage (page : Nat) (count : Nat)
  | maxPagesReached (repo : String)
  | totalStars (n : Nat)
  | warnNoToken
  | chartSaved
  | success
  | noData
deriving DecidableEq

/-- Python exceptions that can escape `get_star_history`. -/
inductive PyErr where
  | jsonDecodeError
  | keyError
  | valueError
deriving DecidableEq

/-- MAX_PAGES = 100 in the script's configuration. -/
def MAX_PAGES : Nat := 100

/-- PER_PAGE = 100 in the script's configuration. -/
def PER_PAGE : Nat := 100

/-- The body of `for item in data: stars.append(strptime(item["starred_at"]))`:
parse every item of a page in order, stopping at the first exception
(`KeyError` for a missing key, `ValueError` for a malformed
timestamp). -/
def parseItems : List Item → Except PyErr (List DateTime)
  | [] => .ok []
  | item :: rest =>
    match item.starred_at with
    | none => .error .keyError
    | some s =>
      match strptime s with
      | none => .error .valueError
      | some d => (parseItems rest).map (fun ds => d :: ds)

deriving instance DecidableEq for Except

/-- Result of the pagination loop of `get_star_history`: the requests
issued, the log produced, and either the collected timestamps or the
exception that escaped. -/
structure FetchResult where
  requests : List Request
  logs : List LogEntry
  stars : Except PyErr (List DateTime)
deriving DecidableEq

/-- The request built by one iteration of the loop: the stargazers URL,
`params = page / per_page`, the star-json Accept header, and an
Authorization header exactly when the token is present. -/
def mkRequest (repo : String) (token : Option String) (page : Nat) : Request :=
  { url := "https://api.github.com/repos/" ++ repo ++ "/stargazers"
    page := page
    per_page := PER_PAGE
    accept := "application/vnd.github.v3.star+json"
    authorization := token.map (fun t => "token " ++ t) }

/-- The `while True` pagination loop of `get_star_history`, starting at
the given page: request the page; on a non-200 status log the status
and body and stop (keeping what was already collected); on invalid
JSON or a malformed item raise; on an empty page stop; otherwise parse
all items, log the page, stop if the page is short, stop with a log if
the next page would exceed MAX_PAGES, else continue with the next
page. -/
def fetchPages (responses : Nat → Response) (token : Option String) (repo : String)
    (page : Nat) : FetchResult :=
  let req := mkRequest repo token page
  let resp := responses page
  if resp.status_code ≠ 200 then
    { requests := [req]
      logs := [.errorStatus repo resp.status_code, .responseBody resp.text]
      stars := .ok [] }
  else
    match resp.body with
    | .invalid => { requests := [req], logs := [], stars := .error .jsonDecodeError }
    | .items data =>
      if data.isEmpty then { requests := [req], logs := [], stars := .ok [] }
      else
        match parseItems data with
        | .error e => { requests := [req], logs := [], stars := .error e }
        | .ok ds =>
          if data.length < PER_PAGE then
            { requests := [req]
              logs := [.fetchedPage page data.length]
              stars := .ok ds }
          else if h : page + 1 > MAX_PAGES then
            { requests := [req]
              logs := [.fetchedPage page data.length, .maxPagesReached repo]
              stars := .ok ds }
          else
            let rest := fetchPages responses token repo (page + 1)
            { requests := req :: rest.requests
              logs := .fetchedPage page data.length :: rest.logs
              stars := rest.stars.map (fun more => ds ++ more) }
termination_by MAX_PAGES + 1 - page
decreasing_by simp at h; omega

/-- Result of `get_star_history` for one repository. -/
structure RepoResult where
  requests : List Request
  logs : List LogEntry
  series : Except PyErr (List (DateTime × Nat))
deriving DecidableEq

/-- The function `get_star_history(repo)`: run the pagination loop from
page 1, then sort the collected timestamps and number them 1..N
(unless an exception escaped the loop). -/
def get_star_history (responses : Nat → Response) (token : Option String)
    (repo : String) : RepoResult :=
  let r := fetchPages responses token repo 1
  match r.stars with
  | .error e =>
    { requests := r.requests
      logs := LogEntry.fetching repo :: r.logs
      series := .error e }
  | .ok stars =>
    { requests := r.requests
      logs := (LogEntry.fetching repo :: r.logs) ++ [.totalStars stars.length]
      series := .ok (toCumulative stars) }

/-- Cumulative star series: list of (timestamp, count) pairs. -/
abbrev Series := List (DateTime × Nat)

/-- The configured repository list, REPOS in the script. -/
def REPOS : List String :=
  ["bittner/pyclean",
   "painless-software/python-cli-test-helpers",
   "painless-software/django-probes",
   "behave/behave-django",
   "jazzband/django-analytical",
   "behave/behave"]

/-- The color palette, COLORS in the script (ten entries). -/
def COLORS : List String :=
  ["#1f77b4", "#ff7f0e", "#2ca02c", "#d62728", "#9467bd", "#8c564b",
   "#e377c2", "#7f7f7f", "#bcbd22", "#17becf"]

/-- Color picked for the entry at position `idx` of the full mapping:
`COLORS[idx % len(COLORS)]`. -/
def colorFor (idx : Nat) : String :=
  COLORS.getD (idx % COLORS.length) ""

/-- The plotting loop of `generate_chart`:
`for idx, (repo, data) in enumerate(repo_data.items())`, skipping
entries with empty data (`if not data: continue`) and coloring each
plotted series by its index in the full mapping. -/
def plottedSeries (repo_data : List (String × Series)) :
    List (String × Series × String) :=
  repo_data.enum.filterMap fun p =>
    if p.2.2.isEmpty then none
    else some (p.2.1, p.2.2, colorFor p.1)

/-- Contents written by `plt.savefig(OUTPUT_FILE, format='svg', ...)`:
the plotted series and the image format. -/
structure SavedFile where
  chart : List (String × Series × String)
  format : String
deriving DecidableEq

/-- File-system state: the set of existing directories and a map from
path to file contents, paths as component lists. -/
structure FileSystem where
  dirs : List (List String)
  files : List (List String × SavedFile)
deriving DecidableEq

/-- OUTPUT_DIR = Path("star-history"). -/
def OUTPUT_DIR : List String := ["star-history"]

/-- OUTPUT_FILE = OUTPUT_DIR / "star-history.svg". -/
def OUTPUT_FILE : List String := OUTPUT_DIR ++ ["star-history.svg"]

/-- Semantics of `path.mkdir(parents=True, exist_ok=True)`: every
prefix of the path exists afterwards; never an error. -/
def mkdirParents (fs : FileSystem) (p : List String) : FileSystem :=
  { fs with dirs := fs.dirs ++ (List.range p.length).map (fun i => p.take (i + 1)) }

/-- Semantics of `plt.savefig(path, ...)`: write the file at the path,
replacing any previous file there. -/
def writeFile (fs : FileSystem) (p : List String) (f : SavedFile) : FileSystem :=
  { fs with files := (p, f) :: fs.files.filter (fun q => !(q.1 == p)) }

/-- Look up the file at a path. -/
def readFile (fs : FileSystem) (p : List String) : Option SavedFile :=
  (fs.files.find? (fun q => q.1 == p)).map Prod.snd

/-- The function `generate_chart(repo_data)`: build the figure from the
non-empty series, create the output directory (parents included), and
save the SVG at the fixed output path. -/
def generate_chart (repo_data : List (String × Series)) (fs : FileSystem) :
    FileSystem × List LogEntry :=
  let chart := plottedSeries repo_data
  let fs1 := mkdirParents fs OUTPUT_DIR
  let fs2 := writeFile fs1 OUTPUT_FILE { chart := chart, format := "svg" }
  (fs2, [.chartSaved])

/-- Python dict assignment `m[k] = v` on an insertion-ordered dict
represented as an association list: overwrite in place if the key
exists, else append. -/
def dictInsert (m : List (String × Series)) (k : String) (v : Series) :
    List (String × Series) :=
  if m.any (fun p => p.1 == k) then
    m.map (fun p => if p.1 == k then (k, v) else p)
  else m ++ [(k, v)]

/-- Result of the fetch phase of `main`. -/
structure FetchAllResult where
  requests : List Request
  logs : List LogEntry
  repo_data : Except PyErr (List (String × Series))
deriving DecidableEq

/-- The loop `for repo in REPOS: repo_data[repo] = get_star_history(repo)`,
with the accumulated dict as explicit state; an exception escaping
`get_star_history` aborts the whole loop. -/
def fetchList (responses : String → Nat → Response) (token : Option String) :
    List (String × Series) → List String → FetchAllResult
  | acc, [] => { requests := [], logs := [], repo_data := .ok acc }
  | acc, repo :: rest =>
    let r := get_star_history (responses repo) token repo
    match r.series with
    | .error e =>
      { requests := r.requests, logs := r.logs, repo_data := .error e }
    | .ok data =>
      let r2 := fetchList responses token (dictInsert acc repo data) rest
      { requests := r.requests ++ r2.requests
        logs := r.logs ++ r2.logs
        repo_data := r2.repo_data }

/-- Fetch phase over the configured repository list. -/
def fetchAll (responses : String → Nat → Response) (token : Option String) :
    FetchAllResult :=
  fetchList responses token [] REPOS

/-- Result of `main`: final file system, all requests issued, the log,
and the exit code (or the escaped exception). -/
structure MainResult where
  fs : FileSystem
  requests : List Request
  logs : List LogEntry
  exit : Except PyErr Nat
deriving DecidableEq

/-- The function `main()`: warn when the token is missing, fetch every
configured repository, then render once if any series is non-empty and
return 0, else return 1; an exception during fetching propagates and
nothing is rendered. -/
def main (responses : String → Nat → Response) (token : Option String)
    (fs : FileSystem) : MainResult :=
  let warnLogs : List LogEntry :=
    match token with
    | none => [.warnNoToken]
    | some _ => []
  let fr := fetchAll responses token
  match fr.repo_data with
  | .error e =>
    { fs := fs, requests := fr.requests, logs := warnLogs ++ fr.logs
      exit := .error e }
  | .ok repo_data =>
    if repo_data.any (fun p => !p.2.isEmpty) then
      let g := generate_chart repo_data fs
      { fs := g.1
        requests := fr.requests
        logs := warnLogs ++ fr.logs ++ g.2 ++ [.success]
        exit := .ok 0 }
    else
      { fs := fs
        requests := fr.requests
        logs := warnLogs ++ fr.logs ++ [.noData]
        exit := .ok 1 }

/-! Helper lemmas about `toCumulative`. -/

theorem toCumulative_length (stars : List DateTime) :
    (toCumulative stars).length = stars.length := by
  simp [toCumulative, List.enum_length,
    (List.perm_insertionSort DateTime.le stars).length_eq]

theorem enum_map_fst_succ (l : List DateTime) :
    l.enum.map (fun p => p.1 + 1) = List.range' 1 l.length := by
  rw [List.range'_eq_map_range, ← List.enum_map_fst l, List.map_map]
  exact List.map_congr_left (fun p _ => Nat.add_comm p.1 1)

theorem toCumulative_counts (stars : List DateTime) :
    (toCumulative stars).map Prod.snd = List.range' 1 stars.length := by
  have h1 : (toCumulative stars).map Prod.snd
      = (List.insertionSort DateTime.le stars).enum.map (fun p => p.1 + 1) := by
    simp only [toCumulative, List.map_map]
    exact List.map_congr_left (fun p _ => rfl)
  rw [h1, enum_map_fst_succ, (List.perm_insertionSort DateTime.le stars).length_eq]

theorem toCumulative_timestamps (stars : List DateTime) :
    (toCumulative stars).map Prod.fst = List.insertionSort DateTime.le stars := by
  have h1 : (toCumulative stars).map Prod.fst
      = (List.insertionSort DateTime.le stars).enum.map Prod.snd := by
    simp only [toCumulative, List.map_map]
    exact List.map_congr_left (fun p _ => rfl)
  rw [h1, List.enum_map_snd]

theorem toCumulative_example (T1 T2 T3 : DateTime)
    (h12 : DateTime.lt T1 T2) (h23 : DateTime.lt T2 T3) :
    toCumulative [T2, T1, T3] = [(T1, 1), (T2, 2), (T3, 3)] := by
  have hle13 : DateTime.le T1 T3 := DateTime.le_of_lt (DateTime.lt_trans h12 h23)
  have hn21 : ¬ DateTime.le T2 T1 := DateTime.not_le_of_lt h12
  have hle23 : DateTime.le T2 T3 := DateTime.le_of_lt h23
  simp [toCumulative, List.insertionSort, List.orderedInsert, hle13, hn21, hle23,
    List.enum, List.enumFrom]

theorem get_star_history_series (responses : Nat → Response)
    (token : Option String) (repo : String) (s : List DateTime)
    (h : (fetchPages responses token repo 1).stars = Except.ok s) :
    (get_star_history responses token repo).series = Except.ok (toCumulative s) := by
  simp [get_star_history, h]

/-- Claim C1: for every collection of N star timestamps gathered in
arbitrary order, the cumulative series built by `get_star_history` has
exactly N pairs, its counts are 1..N, its timestamps are the collected
timestamps sorted non-decreasing, and in particular collected
timestamps [T2, T1, T3] with T1 < T2 < T3 yield
[(T1,1), (T2,2), (T3,3)]. -/
theorem claim_C1 (stars : List DateTime) (T1 T2 T3 : DateTime)
    (h12 : DateTime.lt T1 T2) (h23 : DateTime.lt T2 T3) :
    (∀ responses token repo s,
      (fetchPages responses token repo 1).stars = Except.ok s →
      (get_star_history responses token repo).series = Except.ok (toCumulative s)) ∧
    (toCumulative stars).length = stars.length ∧
    (toCumulative stars).map Prod.snd = List.range' 1 stars.length ∧
    List.Sorted DateTime.le ((toCumulative stars).map Prod.fst) ∧
    ((toCumulative stars).map Prod.fst).Perm stars ∧
    toCumulative [T2, T1, T3] = [(T1, 1), (T2, 2), (T3, 3)] :=
  ⟨get_star_history_series,
   toCumulative_length stars,
   toCumulative_counts stars,
   by rw [toCumulative_timestamps]; exact List.sorted_insertionSort _ _,
   by rw [toCumulative_timestamps]; exact List.perm_insertionSort _ _,
   toCumulative_example T1 T2 T3 h12 h23⟩

/-- Concrete timestamps used by witnesses. -/
def dtA : DateTime := ⟨2020, 1, 1, 0, 0, 0⟩

/-- Concrete timestamps used by witnesses. -/
def dtB : DateTime := ⟨2021, 2, 3, 4, 5, 6⟩

/-- Concrete timestamps used by witnesses. -/
def dtC : DateTime := ⟨2022, 7, 8, 9, 10, 11⟩

/-- Witness for claim C1 at concrete timestamps dtA < dtB < dtC. -/
theorem claim_C1_witness :
    DateTime.lt dtA dtB ∧ DateTime.lt dtB dtC ∧
    ((∀ responses token repo s,
      (fetchPages responses token repo 1).stars = Except.ok s →
      (get_star_history responses token repo).series = Except.ok (toCumulative s)) ∧
    (toCumulative [dtA]).length = [dtA].length ∧
    (toCumulative [dtA]).map Prod.snd = List.range' 1 [dtA].length ∧
    List.Sorted DateTime.le ((toCumulative [dtA]).map Prod.fst) ∧
    ((toCumulative [dtA]).map Prod.fst).Perm [dtA] ∧
    toCumulative [dtB, dtA, dtC] = [(dtA, 1), (dtB, 2), (dtC, 3)]) :=
  ⟨by decide, by decide, claim_C1 [dtA] dtA dtB dtC (by decide) (by decide)⟩

/-! Step lemmas describing one iteration of the pagination loop. -/

theorem fetchPages_error (responses : Nat → Response) (token : Option String)
    (repo : String) (page : Nat) (h : (responses page).status_code ≠ 200) :
    fetchPages responses token repo page =
      { requests := [mkRequest repo token page]
        logs := [.errorStatus repo (responses page).status_code,
                 .responseBody (responses page).text]
        stars := .ok [] } := by
  rw [fetchPages]
  simp [h]

theorem fetchPages_invalid (responses : Nat → Response) (token : Option String)
    (repo : String) (page : Nat) (h : (responses page).status_code = 200)
    (hb : (responses page).body = .invalid) :
    fetchPages responses token repo page =
      { requests := [mkRequest repo token page]
        logs := []
        stars := .error .jsonDecodeError } := by
  rw [fetchPages]
  simp [h, hb]

theorem fetchPages_empty (responses : Nat → Response) (token : Option String)
    (repo : String) (page : Nat) (h : (responses page).status_code = 200)
    (hb : (responses page).body = .items []) :
    fetchPages responses token repo page =
      { requests := [mkRequest repo token page]
        logs := []
        stars := .ok [] } := by
  rw [fetchPages]
  simp [h, hb]

theorem fetchPages_parse_error (responses : Nat → Response) (token : Option String)
    (repo : String) (page : Nat) (data : List Item) (e : PyErr)
    (h : (responses page).status_code = 200)
    (hb : (responses page).body = .items data) (hne : data ≠ [])
    (hp : parseItems data = .error e) :
    fetchPages responses token repo page =
      { requests := [mkRequest repo token page]
        logs := []
        stars := .error e } := by
  rw [fetchPages]
  simp [h, hb, hne, hp, List.isEmpty_iff]

theorem fetchPages_short (responses : Nat → Response) (token : Option String)
    (repo : String) (page : Nat) (data : List Item) (ds : List DateTime)
    (h : (responses page).status_code = 200)
    (hb : (responses page).body = .items data) (hne : data ≠ [])
    (hp : parseItems data = .ok ds) (hlen : data.length < PER_PAGE) :
    fetchPages responses token repo page =
      { requests := [mkRequest repo token page]
        logs := [.fetchedPage page data.length]
        stars := .ok ds } := by
  rw [fetchPages]
  simp [h, hb, hne, hp, hlen, List.isEmpty_iff]

theorem fetchPages_cap (responses : Nat → Response) (token : Option String)
    (repo : String) (page : Nat) (data : List Item) (ds : List DateTime)
    (h : (responses page).status_code = 200)
    (hb : (responses page).body = .items data) (hne : data ≠ [])
    (hp : parseItems data = .ok ds) (hlen : ¬ data.length < PER_PAGE)
    (hcap : page + 1 > MAX_PAGES) :
    fetchPages responses token repo page =
      { requests := [mkRequest repo token page]
        logs := [.fetchedPage page data.length, .maxPagesReached repo]
        stars := .ok ds } := by
  rw [fetchPages]
  simp [h, hb, hne, hp, hlen, hcap, List.isEmpty_iff]

theorem fetchPages_cont (responses : Nat → Response) (token : Option String)
    (repo : String) (page : Nat) (data : List Item) (ds : List DateTime)
    (h : (responses page).status_code = 200)
    (hb : (responses page).body = .items data) (hne : data ≠ [])
    (hp : parseItems data = .ok ds) (hlen : ¬ data.length < PER_PAGE)
    (hcap : ¬ page + 1 > MAX_PAGES) :
    fetchPages responses token repo page =
      { requests := mkRequest repo token page ::
          (fetchPages responses token repo (page + 1)).requests
        logs := .fetchedPage page data.length ::
          (fetchPages responses token repo (page + 1)).logs
        stars := (fetchPages responses token repo (page + 1)).stars.map
          (fun more => ds ++ more) } := by
  rw [fetchPages]
  simp [h, hb, hne, hp, hlen, hcap, List.isEmpty_iff]

/-- Items of a response body (empty for an invalid body). -/
def pageItems (resp : Response) : List Item :=
  match resp.body with
  | .invalid => []
  | .items xs => xs

/-- Number of items on a page. -/
def pageLen (resp : Response) : Nat := (pageItems resp).length

/-- Parsed timestamps of a page (empty if parsing raises). -/
def pageStars (resp : Response) : List DateTime :=
  match parseItems (pageItems resp) with
  | .ok ds => ds
  | .error _ => []

/-- A successful page response: status 200, a JSON list body of at most
PER_PAGE items, all of which parse. -/
def goodPage (resp : Response) : Prop :=
  resp.status_code = 200 ∧ ∃ data, resp.body = .items data ∧
    data.length ≤ PER_PAGE ∧ ∃ ds, parseItems data = .ok ds

theorem parseItems_length (data : List Item) :
    ∀ ds, parseItems data = .ok ds → ds.length = data.length := by
  induction data with
  | nil =>
    intro ds h
    simp [parseItems] at h
    simp [← h]
  | cons item rest ih =>
    intro ds h
    cases hsa : item.starred_at with
    | none =>
      simp only [parseItems, hsa] at h
      exact Except.noConfusion h
    | some s =>
      cases hst : strptime s with
      | none =>
        simp only [parseItems, hsa, hst] at h
        exact Except.noConfusion h
      | some d =>
        cases hp : parseItems rest with
        | error e =>
          simp only [parseItems, hsa, hst, hp, Except.map] at h
          exact Except.noConfusion h
        | ok ds' =>
          simp only [parseItems, hsa, hst, hp, Except.map, Except.ok.injEq] at h
          rw [← h]
          simp [ih ds' hp]

/-- Invariant of the pagination loop when every page response is
successful: starting at `page`, the loop requests the consecutive pages
`page, page+1, ...` (each with `per_page = PER_PAGE`), every page
before the last requested one was full, the last one is either short
or the page cap, and the collected stars are bounded by pages times
page size. -/
theorem fetchPages_all_good (responses : Nat → Response) (token : Option String)
    (repo : String) (hgood : ∀ p, goodPage (responses p)) :
    ∀ page, 1 ≤ page → page ≤ MAX_PAGES →
    ∃ k, 1 ≤ k ∧ page + k - 1 ≤ MAX_PAGES ∧
      (fetchPages responses token repo page).requests =
        (List.range' page k).map (mkRequest repo token) ∧
      (∀ i, page ≤ i → i < page + k - 1 → pageLen (responses i) = PER_PAGE) ∧
      (page + k - 1 = MAX_PAGES ∨ pageLen (responses (page + k - 1)) < PER_PAGE) ∧
      ∃ s, (fetchPages responses token repo page).stars = .ok s ∧
        s.length ≤ k * PER_PAGE := by
  suffices H : ∀ n page, MAX_PAGES + 1 - page = n → 1 ≤ page → page ≤ MAX_PAGES →
      ∃ k, 1 ≤ k ∧ page + k - 1 ≤ MAX_PAGES ∧
        (fetchPages responses token repo page).requests =
          (List.range' page k).map (mkRequest repo token) ∧
        (∀ i, page ≤ i → i < page + k - 1 → pageLen (responses i) = PER_PAGE) ∧
        (page + k - 1 = MAX_PAGES ∨ pageLen (responses (page + k - 1)) < PER_PAGE) ∧
        ∃ s, (fetchPages responses token repo page).stars = .ok s ∧
          s.length ≤ k * PER_PAGE by
    intro page h1 h2
    exact H (MAX_PAGES + 1 - page) page rfl h1 h2
  intro n
  induction n using Nat.strong_induction_on with
  | _ n ih =>
    intro page hn h1 h2
    obtain ⟨hstatus, data, hbody, hlenle, ds, hparse⟩ := hgood page
    have hpl : pageLen (responses page) = data.length := by
      simp [pageLen, pageItems, hbody]
    by_cases hemp : data = []
    · subst hemp
      rw [fetchPages_empty responses token repo page hstatus hbody]
      refine ⟨1, le_refl 1, by omega, by simp [List.range'_succ], ?_, ?_, [], rfl, by simp⟩
      · intro i hi1 hi2; omega
      · right
        have : page + 1 - 1 = page := by omega
        rw [this, hpl]
        simp [PER_PAGE]
    · by_cases hshort : data.length < PER_PAGE
      · rw [fetchPages_short responses token repo page data ds hstatus hbody hemp hparse hshort]
        refine ⟨1, le_refl 1, by omega, by simp [List.range'_succ], ?_, ?_, ds, rfl, ?_⟩
        · intro i hi1 hi2; omega
        · right
          have : page + 1 - 1 = page := by omega
          rw [this, hpl]
          exact hshort
        · rw [parseItems_length data ds hparse]; omega
      · by_cases hcap : page + 1 > MAX_PAGES
        · rw [fetchPages_cap responses token repo page data ds hstatus hbody hemp hparse hshort hcap]
          refine ⟨1, le_refl 1, by omega, by simp [List.range'_succ], ?_, ?_, ds, rfl, ?_⟩
          · intro i hi1 hi2; omega
          · left; omega
          · rw [parseItems_length data ds hparse]; omega
        · have hfull : data.length = PER_PAGE := by omega
          have hlt : MAX_PAGES + 1 - (page + 1) < n := by omega
          obtain ⟨k', hk1, hkle, hreq, hfullpages, hstop, s', hs', hslen⟩ :=
            ih (MAX_PAGES + 1 - (page + 1)) hlt (page + 1) rfl (by omega) (by omega)
          rw [fetchPages_cont responses token repo page data ds hstatus hbody hemp hparse hshort hcap]
          refine ⟨k' + 1, by omega, by omega, ?_, ?_, ?_, ds ++ s', ?_, ?_⟩
          · simp only [List.range'_succ, List.map_cons]
            rw [hreq]
          · intro i hi1 hi2
            rcases Nat.eq_or_lt_of_le hi1 with heq | hlt2
            · rw [← heq, hpl, hfull]
            · exact hfullpages i hlt2 (by omega)
          · have heq : page + (k' + 1) - 1 = page + 1 + k' - 1 := by omega
            rw [heq]
            exact hstop
          · simp [hs', Except.map]
          · have := parseItems_length data ds hparse
            simp only [List.length_append]
            have hPP : PER_PAGE = 100 := rfl
            rw [hPP] at hslen ⊢
            omega

/-- Claim C2: with only successful page responses, the fetcher requests
consecutive pages 1..k of size 100, where every page before the k-th
was full and the k-th is either short/empty or the 100-page cap, so it
issues at most 100 requests and collects at most 10,000 star events;
the loop is a total function, hence always terminates. -/
theorem claim_C2 (responses : Nat → Response) (token : Option String)
    (repo : String) (hgood : ∀ p, goodPage (responses p)) :
    ∃ k, 1 ≤ k ∧ k ≤ MAX_PAGES ∧
      (get_star_history responses token repo).requests =
        (List.range' 1 k).map (mkRequest repo token) ∧
      (∀ r ∈ (get_star_history responses token repo).requests, r.per_page = 100) ∧
      (∀ i, 1 ≤ i → i < k → pageLen (responses i) = 100) ∧
      (k = MAX_PAGES ∨ pageLen (responses k) < 100) ∧
      ∃ s, (get_star_history responses token repo).series = Except.ok s ∧
        s.length ≤ 10000 := by
  obtain ⟨k, hk1, hkle, hreq, hfullpages, hstop, s, hs, hslen⟩ :=
    fetchPages_all_good responses token repo hgood 1 (le_refl 1) (by simp [MAX_PAGES])
  have hsimp : 1 + k - 1 = k := by omega
  rw [hsimp] at hkle hfullpages hstop
  have hget : (get_star_history responses token repo).requests =
      (fetchPages responses token repo 1).requests ∧
      (get_star_history responses token repo).series = Except.ok (toCumulative s) := by
    simp [get_star_history, hs]
  refine ⟨k, hk1, hkle, ?_, ?_, ?_, hstop, toCumulative s, hget.2, ?_⟩
  · rw [hget.1, hreq]
  · intro r hr
    rw [hget.1, hreq] at hr
    obtain ⟨i, _, hi⟩ := List.mem_map.mp hr
    rw [← hi]
    rfl
  · intro i hi1 hi2
    exact hfullpages i hi1 hi2
  · rw [toCumulative_length]
    have hPP : PER_PAGE = 100 := rfl
    rw [hPP] at hslen
    have : k * 100 ≤ 100 * 100 := by
      have : k ≤ 100 := hkle
      omega
    omega

/-- Responses oracle used by witnesses: every page is a successful
empty page. -/
def emptyOkResponses : Nat → Response :=
  fun _ => { status_code := 200, body := .items [], text := "" }

/-- Witness for claim C2: with all pages empty and successful, the
fetcher's behavior satisfies the pagination contract. -/
theorem claim_C2_witness :
    (∀ p, goodPage (emptyOkResponses p)) ∧
    (∃ k, 1 ≤ k ∧ k ≤ MAX_PAGES ∧
      (get_star_history emptyOkResponses none ("a/b")).requests =
        (List.range' 1 k).map (mkRequest ("a/b") none) ∧
      (∀ r ∈ (get_star_history emptyOkResponses none ("a/b")).requests,
        r.per_page = 100) ∧
      (∀ i, 1 ≤ i → i < k → pageLen (emptyOkResponses i) = 100) ∧
      (k = MAX_PAGES ∨ pageLen (emptyOkResponses k) < 100) ∧
      ∃ s, (get_star_history emptyOkResponses none ("a/b")).series = Except.ok s ∧
        s.length ≤ 10000) :=
  ⟨fun p => ⟨rfl, [], rfl, by simp, [], rfl⟩,
   claim_C2 emptyOkResponses none ("a/b")
     (fun p => ⟨rfl, [], rfl, by simp, [], rfl⟩)⟩

/-- A full successful page: status 200 and exactly PER_PAGE items, all
of which parse. -/
def fullPage (resp : Response) : Prop :=
  resp.status_code = 200 ∧ ∃ data, resp.body = .items data ∧
    data.length = PER_PAGE ∧ ∃ ds, parseItems data = .ok ds

/-- Concatenated parsed timestamps of pages `page .. page+k-1`. -/
def pagesStars (responses : Nat → Response) (page k : Nat) : List DateTime :=
  ((List.range' page k).map (fun i => pageStars (responses i))).flatten

/-- Running the loop from `page` over `k` full successful pages
accumulates their requests, logs and stars in front of whatever the
loop does from page `page+k` on. -/
theorem fetchPages_full_prefix (responses : Nat → Response) (token : Option String)
    (repo : String) :
    ∀ k page, 1 ≤ page → page + k ≤ MAX_PAGES →
    (∀ i, page ≤ i → i < page + k → fullPage (responses i)) →
    fetchPages responses token repo page =
      { requests := (List.range' page k).map (mkRequest repo token) ++
          (fetchPages responses token repo (page + k)).requests
        logs := (List.range' page k).map (fun i => LogEntry.fetchedPage i PER_PAGE) ++
          (fetchPages responses token repo (page + k)).logs
        stars := (fetchPages responses token repo (page + k)).stars.map
          (fun more => pagesStars responses page k ++ more) } := by
  intro k
  induction k with
  | zero =>
    intro page h1 h2 hfull
    simp only [List.range', List.map_nil, List.nil_append, Nat.add_zero, pagesStars,
      List.flatten]
    cases hst : (fetchPages responses token repo page).stars with
    | error e =>
      have : fetchPages responses token repo page =
          ⟨(fetchPages responses token repo page).requests,
           (fetchPages responses token repo page).logs,
           (fetchPages responses token repo page).stars⟩ := rfl
      rw [this, hst]
      simp [Except.map]
    | ok s =>
      have : fetchPages responses token repo page =
          ⟨(fetchPages responses token repo page).requests,
           (fetchPages responses token repo page).logs,
           (fetchPages responses token repo page).stars⟩ := rfl
      rw [this, hst]
      simp [Except.map]
  | succ k ihk =>
    intro page h1 h2 hfull
    obtain ⟨hstatus, data, hbody, hlen, ds, hparse⟩ := hfull page (le_refl page) (by omega)
    have hne : data ≠ [] := by
      intro h
      rw [h] at hlen
      simp [PER_PAGE] at hlen
    have hshort : ¬ data.length < PER_PAGE := by omega
    have hcap : ¬ page + 1 > MAX_PAGES := by omega
    rw [fetchPages_cont responses token repo page data ds hstatus hbody hne hparse hshort hcap]
    rw [ihk (page + 1) (by omega) (by omega)
      (fun i hi1 hi2 => hfull i (by omega) (by omega))]
    have harith : page + 1 + k = page + (k + 1) := by omega
    rw [harith]
    have hps : pageStars (responses page) = ds := by
      simp [pageStars, pageItems, hbody, hparse]
    have hpss : pagesStars responses page (k + 1) =
        ds ++ pagesStars responses (page + 1) k := by
      simp only [pagesStars, List.range'_succ, List.map_cons, List.flatten_cons, hps]
    simp only [FetchResult.mk.injEq]
    refine ⟨?_, ?_, ?_⟩
    · simp only [List.range'_succ, List.map_cons, List.cons_append]
    · simp only [List.range'_succ, List.map_cons, List.cons_append, hlen]
    · cases hst : (fetchPages responses token repo (page + (k + 1))).stars with
      | error e => simp [Except.map, hst]
      | ok s => simp [Except.map, hst, hpss, List.append_assoc]

/-- Claim C4: when the page after k collected full pages returns a
non-success status, pagination stops there (pages 1..k+1 requested
exactly once each, no retry), the status and the response body are
logged, and the k pages of already collected timestamps are sorted and
converted into the returned cumulative series; no exception escapes. -/
theorem claim_C4 (responses : Nat → Response) (token : Option String)
    (repo : String) (k : Nat) (hk : k + 1 ≤ MAX_PAGES)
    (hfull : ∀ i, 1 ≤ i → i < 1 + k → fullPage (responses i))
    (herr : (responses (k + 1)).status_code ≠ 200) :
    (get_star_history responses token repo).requests =
      (List.range' 1 (k + 1)).map (mkRequest repo token) ∧
    LogEntry.errorStatus repo (responses (k + 1)).status_code ∈
      (get_star_history responses token repo).logs ∧
    LogEntry.responseBody (responses (k + 1)).text ∈
      (get_star_history responses token repo).logs ∧
    (get_star_history responses token repo).series =
      Except.ok (toCumulative (pagesStars responses 1 k)) := by
  have hpre := fetchPages_full_prefix responses token repo k 1 (le_refl 1) (by omega) hfull
  have ha : 1 + k = k + 1 := by omega
  rw [ha] at hpre
  rw [fetchPages_error responses token repo (k + 1) herr] at hpre
  simp only [Except.map, List.append_nil] at hpre
  have hreq : (get_star_history responses token repo).requests =
      (fetchPages responses token repo 1).requests := by
    simp only [get_star_history, hpre]
  have hlogs : (get_star_history responses token repo).logs =
      LogEntry.fetching repo :: (fetchPages responses token repo 1).logs ++
        [LogEntry.totalStars (pagesStars responses 1 k).length] := by
    simp only [get_star_history, hpre]
  have hser : (get_star_history responses token repo).series =
      Except.ok (toCumulative (pagesStars responses 1 k)) := by
    simp only [get_star_history, hpre]
  refine ⟨?_, ?_, ?_, hser⟩
  · rw [hreq, hpre]
    have : List.range' 1 (k + 1) = List.range' 1 k ++ [1 + k] := by
      have h0 := @List.range'_concat 1 1 k
      simpa using h0
    rw [this, ha] at *
    simp
  · rw [hlogs, hpre]
    simp
  · rw [hlogs, hpre]
    simp

/-- A well-formed stargazer item used by witnesses. -/
def okItem : Item := ⟨some ("2023-01-02T03:04:05Z")⟩

/-- The timestamp `okItem` parses to. -/
def okDT : DateTime := ⟨2023, 1, 2, 3, 4, 5⟩

/-- Responses oracle for the C4 witness: page 1 is a full page of 100
well-formed items, every later page fails with status 500. -/
def fullThenErrResponses : Nat → Response :=
  fun p =>
    if p = 1 then
      { status_code := 200, body := .items (List.replicate 100 okItem), text := "" }
    else
      { status_code := 500, body := .invalid, text := "boom" }

theorem parseItems_replicate_okItem :
    parseItems (List.replicate 100 okItem) = Except.ok (List.replicate 100 okDT) := by
  decide

/-- Witness for claim C4: one full page, then a 500. -/
theorem claim_C4_witness :
    1 + 1 ≤ MAX_PAGES ∧
    (∀ i, 1 ≤ i → i < 1 + 1 → fullPage (fullThenErrResponses i)) ∧
    (fullThenErrResponses (1 + 1)).status_code ≠ 200 ∧
    ((get_star_history fullThenErrResponses none ("a/b")).requests =
      (List.range' 1 (1 + 1)).map (mkRequest ("a/b") none) ∧
    LogEntry.errorStatus ("a/b") (fullThenErrResponses (1 + 1)).status_code ∈
      (get_star_history fullThenErrResponses none ("a/b")).logs ∧
    LogEntry.responseBody (fullThenErrResponses (1 + 1)).text ∈
      (get_star_history fullThenErrResponses none ("a/b")).logs ∧
    (get_star_history fullThenErrResponses none ("a/b")).series =
      Except.ok (toCumulative (pagesStars fullThenErrResponses 1 1))) :=
  ⟨by decide,
   fun i h1 h2 => by
    have hi : i = 1 := by omega
    subst hi
    exact ⟨rfl, List.replicate 100 okItem, rfl, by decide,
      List.replicate 100 okDT, parseItems_replicate_okItem⟩,
   by decide,
   claim_C4 fullThenErrResponses none ("a/b") 1 (by decide)
     (fun i h1 h2 => by
       have hi : i = 1 := by omega
       subst hi
       exact ⟨rfl, List.replicate 100 okItem, rfl, by decide,
         List.replicate 100 okDT, parseItems_replicate_okItem⟩)
     (by decide)⟩

theorem toCumulative_nil : toCumulative [] = [] := rfl

theorem get_star_history_err_first (responses : Nat → Response)
    (token : Option String) (repo : String)
    (herr : (responses 1).status_code ≠ 200) :
    (get_star_history responses token repo).series = Except.ok [] := by
  have h1 := fetchPages_error responses token repo 1 herr
  simp [get_star_history, h1, toCumulative_nil]

theorem plottedSeries_mem (repo_data : List (String × Series)) :
    ∀ e ∈ plottedSeries repo_data, e.2.1 ≠ [] ∧ (e.1, e.2.1) ∈ repo_data := by
  intro e he
  simp only [plottedSeries, List.mem_filterMap] at he
  obtain ⟨p, hp, hsome⟩ := he
  by_cases hemp : p.2.2.isEmpty
  · rw [if_pos hemp] at hsome
    exact absurd hsome (by simp)
  · rw [if_neg hemp] at hsome
    have he2 : e = (p.2.1, p.2.2, colorFor p.1) := by
      cases hsome
      rfl
    have hmem : p.2 ∈ repo_data := by
      rw [← List.enum_map_snd repo_data]
      exact List.mem_map_of_mem Prod.snd hp
    subst he2
    constructor
    · simp only [List.isEmpty_iff] at hemp
      exact hemp
    · simpa using hmem

/-- Claim C5: a repository whose very first page request fails gets the
empty series; the renderer plots only entries with a non-empty series,
each plotted entry being exactly that repository's own series from the
mapping; and a repository's fetch result depends only on its own
response oracle, so other repositories are unaffected. -/
theorem claim_C5 (responses : Nat → Response) (token : Option String)
    (repo : String) (herr : (responses 1).status_code ≠ 200) :
    (get_star_history responses token repo).series = Except.ok [] ∧
    (∀ repo_data : List (String × Series), ∀ e ∈ plottedSeries repo_data,
      e.2.1 ≠ [] ∧ (e.1, e.2.1) ∈ repo_data) ∧
    (∀ (g g' : String → Nat → Response) (t : Option String) (r : String),
      g r = g' r → get_star_history (g r) t r = get_star_history (g' r) t r) := by
  refine ⟨get_star_history_err_first responses token repo herr, plottedSeries_mem, ?_⟩
  intro g g' t r h
  rw [h]

/-- Responses oracle used by witnesses: every page of every repository
fails with status 500. -/
def err500Responses : String → Nat → Response :=
  fun _ _ => { status_code := 500, body := .invalid, text := "err" }

/-- Witness for claim C5 with a failing first page. -/
theorem claim_C5_witness :
    (err500Responses ("a/b") 1).status_code ≠ 200 ∧
    ((get_star_history (err500Responses ("a/b")) none ("a/b")).series =
      Except.ok [] ∧
    (∀ repo_data : List (String × Series), ∀ e ∈ plottedSeries repo_data,
      e.2.1 ≠ [] ∧ (e.1, e.2.1) ∈ repo_data) ∧
    (∀ (g g' : String → Nat → Response) (t : Option String) (r : String),
      g r = g' r → get_star_history (g r) t r = get_star_history (g' r) t r)) :=
  ⟨by decide, claim_C5 (err500Responses ("a/b")) none ("a/b") (by decide)⟩

/-- Empty file system used by witnesses. -/
def fsEmpty : FileSystem := { dirs := [], files := [] }

/-- Claim C3: when the fetch phase completes without an exception, the
exit code is 0 exactly when some repository's series is non-empty, and
1 exactly when every repository's series is empty. -/
theorem claim_C3 (responses : String → Nat → Response) (token : Option String)
    (fs : FileSystem) (rd : List (String × Series))
    (h : (fetchAll responses token).repo_data = Except.ok rd) :
    ((main responses token fs).exit = Except.ok 0 ↔ ∃ p ∈ rd, p.2 ≠ []) ∧
    ((main responses token fs).exit = Except.ok 1 ↔ ∀ p ∈ rd, p.2 = []) := by
  by_cases hany : rd.any (fun p => !p.2.isEmpty)
  · have hexit : (main responses token fs).exit = Except.ok 0 := by
      simp [main, h, hany]
    have hex : ∃ p ∈ rd, p.2 ≠ [] := by
      obtain ⟨p, hp, hne⟩ := List.any_eq_true.mp hany
      refine ⟨p, hp, ?_⟩
      simpa [List.isEmpty_iff] using hne
    rw [hexit]
    constructor
    · simp [hex]
    · constructor
      · intro h01
        exact absurd h01 (by simp)
      · intro hall
        obtain ⟨p, hp, hne⟩ := hex
        exact absurd (hall p hp) hne
  · have hexit : (main responses token fs).exit = Except.ok 1 := by
      simp only [main, h, hany]
      rfl
    have hall : ∀ p ∈ rd, p.2 = [] := by
      intro p hp
      by_contra hne
      apply hany
      exact List.any_eq_true.mpr ⟨p, hp, by simpa [List.isEmpty_iff] using hne⟩
    rw [hexit]
    constructor
    · constructor
      · intro h10
        exact absurd h10 (by simp)
      · intro hex
        obtain ⟨p, hp, hne⟩ := hex
        exact absurd (hall p hp) hne
    · exact ⟨fun _ => hall, fun _ => rfl⟩

theorem fetchList_const_empty (responses : String → Nat → Response)
    (token : Option String)
    (h1 : ∀ repo, (get_star_history (responses repo) token repo).series =
      Except.ok []) :
    ∀ (repos : List String) (acc : List (String × Series)),
      (fetchList responses token acc repos).repo_data =
        Except.ok (repos.foldl (fun a r => dictInsert a r []) acc) := by
  intro repos
  induction repos with
  | nil => intro acc; simp [fetchList]
  | cons r rest ih =>
    intro acc
    simp only [fetchList, h1 r, List.foldl_cons]
    exact ih (dictInsert acc r [])

/-- The repository mapping produced when every fetch yields the empty
series. -/
def rdEmpty : List (String × Series) :=
  REPOS.foldl (fun a r => dictInsert a r []) []

theorem fetchAll_err500 :
    (fetchAll err500Responses none).repo_data = Except.ok rdEmpty :=
  fetchList_const_empty err500Responses none
    (fun repo => get_star_history_err_first (err500Responses repo) none repo
      (by simp [err500Responses])) REPOS []

/-- Witness for claim C3: every repository fails at page 1, so the run
exits with code 1. -/
theorem claim_C3_witness :
    (fetchAll err500Responses none).repo_data = Except.ok rdEmpty ∧
    (((main err500Responses none fsEmpty).exit = Except.ok 0 ↔
        ∃ p ∈ rdEmpty, p.2 ≠ []) ∧
     ((main err500Responses none fsEmpty).exit = Except.ok 1 ↔
        ∀ p ∈ rdEmpty, p.2 = [])) :=
  ⟨fetchAll_err500,
   claim_C3 err500Responses none fsEmpty rdEmpty fetchAll_err500⟩

/-! Lemmas for claim C6: the shape of the requests and the fact that
the token influences only the Authorization header, never the
control flow. -/

theorem fetchPages_requests_shape (responses : Nat → Response)
    (token : Option String) (repo : String) :
    ∀ page, ∀ r ∈ (fetchPages responses token repo page).requests,
      ∃ p, r = mkRequest repo token p := by
  suffices H : ∀ n page, MAX_PAGES + 1 - page = n →
      ∀ r ∈ (fetchPages responses token repo page).requests,
        ∃ p, r = mkRequest repo token p by
    intro page
    exact H (MAX_PAGES + 1 - page) page rfl
  intro n
  induction n using Nat.strong_induction_on with
  | _ n ih =>
    intro page hn r hr
    by_cases h200 : (responses page).status_code ≠ 200
    · rw [fetchPages_error responses token repo page h200] at hr
      simp at hr
      exact ⟨page, hr⟩
    · push_neg at h200
      cases hb : (responses page).body with
      | invalid =>
        rw [fetchPages_invalid responses token repo page h200 hb] at hr
        simp at hr
        exact ⟨page, hr⟩
      | items data =>
        by_cases hemp : data = []
        · subst hemp
          rw [fetchPages_empty responses token repo page h200 hb] at hr
          simp at hr
          exact ⟨page, hr⟩
        · cases hp : parseItems data with
          | error e =>
            rw [fetchPages_parse_error responses token repo page data e h200 hb hemp hp] at hr
            simp at hr
            exact ⟨page, hr⟩
          | ok ds =>
            by_cases hshort : data.length < PER_PAGE
            · rw [fetchPages_short responses token repo page data ds h200 hb hemp hp hshort] at hr
              simp at hr
              exact ⟨page, hr⟩
            · by_cases hcap : page + 1 > MAX_PAGES
              · rw [fetchPages_cap responses token repo page data ds h200 hb hemp hp hshort hcap] at hr
                simp at hr
                exact ⟨page, hr⟩
              · rw [fetchPages_cont responses token repo page data ds h200 hb hemp hp hshort hcap] at hr
                simp only [List.mem_cons] at hr
                rcases hr with hr | hr
                · exact ⟨page, hr⟩
                · exact ih (MAX_PAGES + 1 - (page + 1)) (by omega) (page + 1)
                    rfl r hr

theorem fetchPages_token_irrel (responses : Nat → Response) (repo : String)
    (t t' : Option String) :
    ∀ page, (fetchPages responses t repo page).stars =
        (fetchPages responses t' repo page).stars ∧
      (fetchPages responses t repo page).logs =
        (fetchPages responses t' repo page).logs := by
  suffices H : ∀ n page, MAX_PAGES + 1 - page = n →
      (fetchPages responses t repo page).stars =
        (fetchPages responses t' repo page).stars ∧
      (fetchPages responses t repo page).logs =
        (fetchPages responses t' repo page).logs by
    intro page
    exact H (MAX_PAGES + 1 - page) page rfl
  intro n
  induction n using Nat.strong_induction_on with
  | _ n ih =>
    intro page hn
    by_cases h200 : (responses page).status_code ≠ 200
    · rw [fetchPages_error responses t repo page h200,
        fetchPages_error responses t' repo page h200]
      exact ⟨rfl, rfl⟩
    · push_neg at h200
      cases hb : (responses page).body with
      | invalid =>
        rw [fetchPages_invalid responses t repo page h200 hb,
          fetchPages_invalid responses t' repo page h200 hb]
        exact ⟨rfl, rfl⟩
      | items data =>
        by_cases hemp : data = []
        · subst hemp
          rw [fetchPages_empty responses t repo page h200 hb,
            fetchPages_empty responses t' repo page h200 hb]
          exact ⟨rfl, rfl⟩
        · cases hp : parseItems data with
          | error e =>
            rw [fetchPages_parse_error responses t repo page data e h200 hb hemp hp,
              fetchPages_parse_error responses t' repo page data e h200 hb hemp hp]
            exact ⟨rfl, rfl⟩
          | ok ds =>
            by_cases hshort : data.length < PER_PAGE
            · rw [fetchPages_short responses t repo page data ds h200 hb hemp hp hshort,
                fetchPages_short responses t' repo page data ds h200 hb hemp hp hshort]
              exact ⟨rfl, rfl⟩
            · by_cases hcap : page + 1 > MAX_PAGES
              · rw [fetchPages_cap responses t repo page data ds h200 hb hemp hp hshort hcap,
                  fetchPages_cap responses t' repo page data ds h200 hb hemp hp hshort hcap]
                exact ⟨rfl, rfl⟩
              · rw [fetchPages_cont responses t repo page data ds h200 hb hemp hp hshort hcap,
                  fetchPages_cont responses t' repo page data ds h200 hb hemp hp hshort hcap]
                obtain ⟨hs, hl⟩ := ih (MAX_PAGES + 1 - (page + 1)) (by omega)
                  (page + 1) rfl
                exact ⟨by rw [hs], by rw [hl]⟩

theorem get_star_history_requests (responses : Nat → Response)
    (token : Option String) (repo : String) :
    (get_star_history responses token repo).requests =
      (fetchPages responses token repo 1).requests := by
  simp only [get_star_history]
  cases hs : (fetchPages responses token repo 1).stars <;> simp

theorem get_star_history_token_irrel (responses : Nat → Response)
    (repo : String) (t t' : Option String) :
    (get_star_history responses t repo).series =
      (get_star_history responses t' repo).series := by
  obtain ⟨hs, _⟩ := fetchPages_token_irrel responses repo t t' 1
  simp only [get_star_history]
  rw [hs]
  cases h2 : (fetchPages responses t' repo 1).stars <;> simp

theorem fetchList_token_irrel (responses : String → Nat → Response)
    (t t' : Option String) :
    ∀ (repos : List String) (acc : List (String × Series)),
      (fetchList responses t acc repos).repo_data =
        (fetchList responses t' acc repos).repo_data := by
  intro repos
  induction repos with
  | nil => intro acc; rfl
  | cons rp rest ih =>
    intro acc
    have hser := get_star_history_token_irrel (responses rp) rp t t'
    simp only [fetchList]
    cases hs : (get_star_history (responses rp) t rp).series with
    | error e =>
      rw [hs] at hser
      rw [← hser]
    | ok data =>
      rw [hs] at hser
      rw [← hser]
      exact ih (dictInsert acc rp data)

theorem main_token_irrel (responses : String → Nat → Response)
    (fs : FileSystem) (t t' : Option String) :
    (main responses t fs).exit = (main responses t' fs).exit := by
  have h := fetchList_token_irrel responses t t' REPOS []
  simp only [main, fetchAll]
  cases hs : (fetchList responses t [] REPOS).repo_data with
  | error e =>
    rw [hs] at h
    rw [← h]
  | ok rd =>
    rw [hs] at h
    rw [← h]
    by_cases hany : rd.any (fun p => !p.2.isEmpty) <;> simp [hany]

theorem main_requests (responses : String → Nat → Response)
    (token : Option String) (fs : FileSystem) :
    (main responses token fs).requests = (fetchAll responses token).requests := by
  simp only [main]
  cases hs : (fetchAll responses token).repo_data with
  | error e => rfl
  | ok rd => by_cases hany : rd.any (fun p => !p.2.isEmpty) <;> simp [hany]

theorem main_warn (responses : String → Nat → Response) (fs : FileSystem) :
    LogEntry.warnNoToken ∈ (main responses none fs).logs := by
  simp only [main]
  cases hs : (fetchAll responses none).repo_data with
  | error e => simp
  | ok rd => by_cases hany : rd.any (fun p => !p.2.isEmpty) <;> simp [hany]

theorem fetchList_requests_shape (responses : String → Nat → Response)
    (token : Option String) :
    ∀ (repos : List String) (acc : List (String × Series)),
      ∀ r ∈ (fetchList responses token acc repos).requests,
        ∃ repo p, r = mkRequest repo token p := by
  intro repos
  induction repos with
  | nil =>
    intro acc r hr
    simp [fetchList] at hr
  | cons rp rest ih =>
    intro acc r hr
    simp only [fetchList] at hr
    cases hs : (get_star_history (responses rp) token rp).series with
    | error e =>
      rw [hs] at hr
      simp only [] at hr
      rw [get_star_history_requests] at hr
      obtain ⟨p, hp⟩ := fetchPages_requests_shape (responses rp) token rp 1 r hr
      exact ⟨rp, p, hp⟩
    | ok data =>
      rw [hs] at hr
      simp only [List.mem_append] at hr
      rcases hr with hr | hr
      · rw [get_star_history_requests] at hr
        obtain ⟨p, hp⟩ := fetchPages_requests_shape (responses rp) token rp 1 r hr
        exact ⟨rp, p, hp⟩
      · exact ih (dictInsert acc rp data) r hr

/-- Claim C6: when the GITHUB_TOKEN variable holds a credential, every
request of every repository and page carries it in an Authorization
header; when it is unset, every request goes out without an
Authorization header, a warning is printed, and the missing token never
changes the exit outcome (it is not an error). -/
theorem claim_C6 (responses : String → Nat → Response) (token : Option String)
    (fs : FileSystem) :
    (∀ t, token = some t →
      ∀ r ∈ (main responses token fs).requests,
        r.authorization = some ("token " ++ t)) ∧
    (token = none →
      (∀ r ∈ (main responses token fs).requests, r.authorization = none) ∧
      LogEntry.warnNoToken ∈ (main responses token fs).logs ∧
      ∀ t, (main responses token fs).exit = (main responses (some t) fs).exit) := by
  constructor
  · intro t ht r hr
    subst ht
    rw [main_requests] at hr
    simp only [fetchAll] at hr
    obtain ⟨repo, p, hp⟩ := fetchList_requests_shape responses (some t) REPOS [] r hr
    rw [hp]
    rfl
  · intro ht
    subst ht
    refine ⟨?_, main_warn responses fs, ?_⟩
    · intro r hr
      rw [main_requests] at hr
      simp only [fetchAll] at hr
      obtain ⟨repo, p, hp⟩ := fetchList_requests_shape responses none REPOS [] r hr
      rw [hp]
      rfl
    · intro t
      exact main_token_irrel responses fs none (some t)

/-- Witness for claim C6, at a concrete oracle with and without a
token. -/
theorem claim_C6_witness :
    (∀ r ∈ (main err500Responses (some ("tok")) fsEmpty).requests,
      r.authorization = some ("token " ++ "tok")) ∧
    (∀ r ∈ (main err500Responses none fsEmpty).requests,
      r.authorization = none) ∧
    LogEntry.warnNoToken ∈ (main err500Responses none fsEmpty).logs ∧
    (main err500Responses none fsEmpty).exit =
      (main err500Responses (some ("tok")) fsEmpty).exit :=
  ⟨fun r hr =>
    (claim_C6 err500Responses (some ("tok")) fsEmpty).1 ("tok") rfl r hr,
   fun r hr =>
    ((claim_C6 err500Responses none fsEmpty).2 rfl).1 r hr,
   ((claim_C6 err500Responses none fsEmpty).2 rfl).2.1,
   ((claim_C6 err500Responses none fsEmpty).2 rfl).2.2 ("tok")⟩

/-- Claim C7: whenever the renderer runs, the chart is written as an
SVG to the one fixed output path, the parent directory is created, and
after the run the only file at that path is the newly written one, no
matter what file system state (including a pre-existing output file)
the run started from — so re-running needs no manual cleanup. -/
theorem claim_C7 (repo_data repo_data2 : List (String × Series)) (fs : FileSystem) :
    readFile (generate_chart repo_data fs).1 OUTPUT_FILE =
      some { chart := plottedSeries repo_data, format := "svg" } ∧
    OUTPUT_DIR ∈ (generate_chart repo_data fs).1.dirs ∧
    (generate_chart repo_data fs).1.files.filter (fun q => q.1 == OUTPUT_FILE) =
      [(OUTPUT_FILE, { chart := plottedSeries repo_data, format := "svg" })] ∧
    readFile (generate_chart repo_data2 (generate_chart repo_data fs).1).1
        OUTPUT_FILE =
      some { chart := plottedSeries repo_data2, format := "svg" } := by
  refine ⟨?_, ?_, ?_, ?_⟩
  · simp [generate_chart, writeFile, readFile, mkdirParents]
  · simp [generate_chart, writeFile, mkdirParents, OUTPUT_DIR]
  · simp only [generate_chart, writeFile, mkdirParents]
    rw [List.filter_cons]
    simp [List.filter_filter]
  · simp [generate_chart, writeFile, readFile, mkdirParents]

/-! Lemmas about `dictInsert` and the fetch loop's accumulated dict,
for claim C8. -/

theorem any_key_eq_false_iff (m : List (String × Series)) (k : String) :
    m.any (fun p => p.1 == k) = false ↔ k ∉ m.map Prod.fst := by
  rw [List.any_eq_false]
  constructor
  · intro h hk
    obtain ⟨p, hp, hpk⟩ := List.mem_map.mp hk
    exact h p hp (by simp [hpk])
  · intro h p hp hpk
    exact h (List.mem_map.mpr ⟨p, hp, by simpa using hpk⟩)

theorem dictInsert_new (m : List (String × Series)) (k : String) (v : Series)
    (h : k ∉ m.map Prod.fst) : dictInsert m k v = m ++ [(k, v)] := by
  unfold dictInsert
  rw [if_neg]
  simp only [(any_key_eq_false_iff m k).mpr h]
  simp

theorem dictInsert_mem_of_ne (m : List (String × Series)) (k : String)
    (v : Series) (p : String × Series) (hp : p ∈ m) (hne : p.1 ≠ k) :
    p ∈ dictInsert m k v := by
  unfold dictInsert
  split
  · refine List.mem_map.mpr ⟨p, hp, ?_⟩
    simp [hne]
  · exact List.mem_append_left _ hp

theorem fetchList_acc_mem (responses : String → Nat → Response)
    (token : Option String) :
    ∀ (repos : List String) (acc rd : List (String × Series)),
      (fetchList responses token acc repos).repo_data = Except.ok rd →
      ∀ p ∈ acc, p.1 ∉ repos → p ∈ rd := by
  intro repos
  induction repos with
  | nil =>
    intro acc rd h p hp _
    simp only [fetchList, Except.ok.injEq] at h
    rw [← h]
    exact hp
  | cons rp rest ih =>
    intro acc rd h p hp hnot
    simp only [fetchList] at h
    cases hs : (get_star_history (responses rp) token rp).series with
    | error e =>
      rw [hs] at h
      simp at h
    | ok data =>
      rw [hs] at h
      simp only [] at h
      have hne : p.1 ≠ rp := fun hc => hnot (by rw [hc]; exact List.mem_cons_self rp rest)
      exact ih (dictInsert acc rp data) rd h p
        (dictInsert_mem_of_ne acc rp data p hp hne)
        (fun hc => hnot (List.mem_cons_of_mem rp hc))

theorem fetchList_keys (responses : String → Nat → Response)
    (token : Option String) :
    ∀ (repos : List String) (acc rd : List (String × Series)),
      (acc.map Prod.fst ++ repos).Nodup →
      (fetchList responses token acc repos).repo_data = Except.ok rd →
      rd.map Prod.fst = acc.map Prod.fst ++ repos := by
  intro repos
  induction repos with
  | nil =>
    intro acc rd _ h
    simp only [fetchList, Except.ok.injEq] at h
    rw [← h]
    simp
  | cons rp rest ih =>
    intro acc rd hnd h
    simp only [fetchList] at h
    cases hs : (get_star_history (responses rp) token rp).series with
    | error e =>
      rw [hs] at h
      simp at h
    | ok data =>
      rw [hs] at h
      simp only [] at h
      have hsplit := List.nodup_append.mp hnd
      have hknotin : rp ∉ acc.map Prod.fst := fun hc =>
        hsplit.2.2 hc (List.mem_cons_self rp rest)
      rw [dictInsert_new acc rp data hknotin] at h
      have hnd' : ((acc ++ [(rp, data)]).map Prod.fst ++ rest).Nodup := by
        simp only [List.map_append, List.map_cons, List.map_nil, List.append_assoc,
          List.singleton_append]
        exact hnd
      have hres := ih (acc ++ [(rp, data)]) rd hnd' h
      rw [hres]
      simp [List.map_append, List.append_assoc]

theorem fetchList_values (responses : String → Nat → Response)
    (token : Option String) :
    ∀ (repos : List String) (acc rd : List (String × Series)),
      (acc.map Prod.fst ++ repos).Nodup →
      (fetchList responses token acc repos).repo_data = Except.ok rd →
      ∀ repo ∈ repos, ∃ s,
        (get_star_history (responses repo) token repo).series = Except.ok s ∧
        (repo, s) ∈ rd := by
  intro repos
  induction repos with
  | nil =>
    intro acc rd _ _ repo hr
    simp at hr
  | cons rp rest ih =>
    intro acc rd hnd h repo hr
    simp only [fetchList] at h
    cases hs : (get_star_history (responses rp) token rp).series with
    | error e =>
      rw [hs] at h
      simp at h
    | ok data =>
      rw [hs] at h
      simp only [] at h
      have hsplit := List.nodup_append.mp hnd
      have hknotin : rp ∉ acc.map Prod.fst := fun hc =>
        hsplit.2.2 hc (List.mem_cons_self rp rest)
      rw [dictInsert_new acc rp data hknotin] at h
      rcases List.mem_cons.mp hr with heq | hmem
      · subst heq
        refine ⟨data, hs, ?_⟩
        have hrpnotin : repo ∉ rest := (List.nodup_cons.mp hsplit.2.1).1
        exact fetchList_acc_mem responses token rest (acc ++ [(repo, data)]) rd h
          (repo, data) (by simp) hrpnotin
      · have hnd' : ((acc ++ [(rp, data)]).map Prod.fst ++ rest).Nodup := by
          simp only [List.map_append, List.map_cons, List.map_nil, List.append_assoc,
            List.singleton_append]
          exact hnd
        exact ih (acc ++ [(rp, data)]) rd hnd' h repo hmem

/-- Claim C8: when the fetch phase completes, the mapping handed to the
renderer has exactly the configured repositories as keys, in
configuration order; every configured repository has an entry, and a
repository whose first page request failed appears with the empty
series rather than being absent. -/
theorem claim_C8 (responses : String → Nat → Response) (token : Option String)
    (rd : List (String × Series))
    (h : (fetchAll responses token).repo_data = Except.ok rd) :
    rd.map Prod.fst = REPOS ∧
    (∀ repo ∈ REPOS, ∃ s, (repo, s) ∈ rd) ∧
    (∀ repo ∈ REPOS, (responses repo 1).status_code ≠ 200 →
      (repo, ([] : Series)) ∈ rd) := by
  have hnd : ((([] : List (String × Series)).map Prod.fst) ++ REPOS).Nodup := by
    simp only [List.map_nil, List.nil_append]
    decide
  have hkeys := fetchList_keys responses token REPOS [] rd hnd h
  have hvals := fetchList_values responses token REPOS [] rd hnd h
  refine ⟨by simpa using hkeys, ?_, ?_⟩
  · intro repo hr
    obtain ⟨s, _, hmem⟩ := hvals repo hr
    exact ⟨s, hmem⟩
  · intro repo hr herr
    obtain ⟨s, hser, hmem⟩ := hvals repo hr
    have h2 := hser.symm.trans
      (get_star_history_err_first (responses repo) token repo herr)
    injection h2 with h3
    rw [← h3]
    exact hmem

/-- Witness for claim C8: the all-failing oracle, whose fetch phase
completes with every series empty. -/
theorem claim_C8_witness :
    (fetchAll err500Responses none).repo_data = Except.ok rdEmpty ∧
    (rdEmpty.map Prod.fst = REPOS ∧
    (∀ repo ∈ REPOS, ∃ s, (repo, s) ∈ rdEmpty) ∧
    (∀ repo ∈ REPOS, (err500Responses repo 1).status_code ≠ 200 →
      (repo, ([] : Series)) ∈ rdEmpty)) :=
  ⟨fetchAll_err500, claim_C8 err500Responses none rdEmpty fetchAll_err500⟩

theorem parseItems_error_of_bad (data : List Item)
    (h : ∃ item ∈ data, item.starred_at = none ∨
      ∃ s, item.starred_at = some s ∧ strptime s = none) :
    ∃ e, parseItems data = Except.error e := by
  induction data with
  | nil => simp at h
  | cons item rest ih =>
    obtain ⟨it, hit, hbad⟩ := h
    cases hsa : item.starred_at with
    | none => exact ⟨.keyError, by simp [parseItems, hsa]⟩
    | some s =>
      cases hst : strptime s with
      | none => exact ⟨.valueError, by simp [parseItems, hsa, hst]⟩
      | some d =>
        rcases List.mem_cons.mp hit with heq | hmem
        · subst heq
          rcases hbad with hnone | ⟨s', hsome, hst'⟩
          · rw [hsa] at hnone
            exact absurd hnone (by simp)
          · rw [hsa] at hsome
            injection hsome with hss
            rw [← hss] at hst'
            rw [hst] at hst'
            exact absurd hst' (by simp)
        · obtain ⟨e, he⟩ := ih ⟨it, hmem, hbad⟩
          exact ⟨e, by simp [parseItems, hsa, hst, he, Except.map]⟩

theorem get_star_history_series_error (responses : Nat → Response)
    (token : Option String) (repo : String) (e : PyErr)
    (h : (fetchPages responses token repo 1).stars = Except.error e) :
    (get_star_history responses token repo).series = Except.error e := by
  simp [get_star_history, h]

/-- Claim C9: error containment covers only non-success statuses — a
status-200 page whose body is invalid JSON, or contains an item with no
"starred_at" key, or a timestamp that strptime rejects, makes
`get_star_history` raise; an exception escaping the fetch phase makes
`main` propagate it, leaving the file system untouched (no chart is
written for any repository). -/
theorem claim_C9 (responses : Nat → Response) (token : Option String)
    (repo : String) (k : Nat) (hk : k + 1 ≤ MAX_PAGES)
    (hfull : ∀ i, 1 ≤ i → i < 1 + k → fullPage (responses i))
    (hstatus : (responses (k + 1)).status_code = 200)
    (hbad : (responses (k + 1)).body = Body.invalid ∨
      ∃ data, (responses (k + 1)).body = Body.items data ∧
        ∃ item ∈ data, item.starred_at = none ∨
          ∃ s, item.starred_at = some s ∧ strptime s = none) :
    (∃ e, (get_star_history responses token repo).series = Except.error e) ∧
    (∀ (g : String → Nat → Response) (t : Option String) (fs : FileSystem)
      (e : PyErr), (fetchAll g t).repo_data = Except.error e →
      (main g t fs).fs = fs ∧ (main g t fs).exit = Except.error e) := by
  constructor
  · have hpre := fetchPages_full_prefix responses token repo k 1 (le_refl 1)
      (by omega) hfull
    have ha : 1 + k = k + 1 := by omega
    rw [ha] at hpre
    have herrstars : ∃ e, (fetchPages responses token repo (k + 1)).stars =
        Except.error e := by
      rcases hbad with hinv | ⟨data, hitems, hbaditem⟩
      · exact ⟨.jsonDecodeError,
          by rw [fetchPages_invalid responses token repo (k + 1) hstatus hinv]⟩
      · have hne : data ≠ [] := by
          obtain ⟨it, hit, _⟩ := hbaditem
          intro hc
          rw [hc] at hit
          simp at hit
        obtain ⟨e, he⟩ := parseItems_error_of_bad data hbaditem
        exact ⟨e, by
          rw [fetchPages_parse_error responses token repo (k + 1) data e hstatus
            hitems hne he]⟩
    obtain ⟨e, he⟩ := herrstars
    refine ⟨e, get_star_history_series_error responses token repo e ?_⟩
    rw [hpre]
    simp [he, Except.map]
  · intro g t fs e he
    constructor <;> simp [main, he]

/-- Responses oracle for the C9 witness: status 200 but a body that is
not valid JSON. -/
def badJSONResponses : Nat → Response :=
  fun _ => { status_code := 200, body := .invalid, text := "<html>" }

/-- Witness for claim C9: the very first page is a 200 with an invalid
JSON body. -/
theorem claim_C9_witness :
    0 + 1 ≤ MAX_PAGES ∧
    (badJSONResponses (0 + 1)).status_code = 200 ∧
    ((badJSONResponses (0 + 1)).body = Body.invalid ∨
      ∃ data, (badJSONResponses (0 + 1)).body = Body.items data ∧
        ∃ item ∈ data, item.starred_at = none ∨
          ∃ s, item.starred_at = some s ∧ strptime s = none) ∧
    ((∃ e, (get_star_history badJSONResponses none ("a/b")).series =
        Except.error e) ∧
    (∀ (g : String → Nat → Response) (t : Option String) (fs : FileSystem)
      (e : PyErr), (fetchAll g t).repo_data = Except.error e →
      (main g t fs).fs = fs ∧ (main g t fs).exit = Except.error e)) :=
  ⟨by decide, rfl, Or.inl rfl,
   claim_C9 badJSONResponses none ("a/b") 0 (by decide)
     (fun i h1 h2 => absurd h2 (by omega))
     rfl (Or.inl rfl)⟩

/-- Replace the series of the entry at position `i` of the mapping by
the empty series, keeping the key and the position (this is what
"removing a repository's data" does to the renderer's input). -/
def wipeAt (repo_data : List (String × Series)) (i : Nat) :
    List (String × Series) :=
  repo_data.enum.map (fun p => if p.1 = i then (p.2.1, ([] : Series)) else p.2)

theorem plottedSeries_mem_of_get (rd : List (String × Series)) (j : Nat)
    (hj : j < rd.length) (hne : (rd.get ⟨j, hj⟩).2 ≠ []) :
    ((rd.get ⟨j, hj⟩).1, (rd.get ⟨j, hj⟩).2, colorFor j) ∈ plottedSeries rd := by
  apply List.mem_filterMap.mpr
  refine ⟨(j, rd.get ⟨j, hj⟩), ?_, ?_⟩
  · have hg : rd.enum.get ⟨j, by simpa [List.enum_length] using hj⟩ =
        (j, rd.get ⟨j, hj⟩) := by
      simp [List.get_eq_getElem, List.getElem_enum]
    rw [← hg]
    exact List.get_mem _ _ _
  · have hne' : ¬ rd[j].2 = [] := by simpa [List.get_eq_getElem] using hne
    simp [List.isEmpty_iff, hne']

theorem wipeAt_length (rd : List (String × Series)) (i : Nat) :
    (wipeAt rd i).length = rd.length := by
  simp [wipeAt, List.enum_length]

theorem wipeAt_get_ne (rd : List (String × Series)) (i j : Nat)
    (hj : j < rd.length) (hne : j ≠ i) (hj2 : j < (wipeAt rd i).length) :
    (wipeAt rd i).get ⟨j, hj2⟩ = rd.get ⟨j, hj⟩ := by
  simp [wipeAt, List.get_eq_getElem, List.getElem_map, List.getElem_enum, hne]

/-- Counterexample to claim C10: a mapping of two non-empty
repositories, then the same mapping with the first repository's data
removed (series emptied).  The second repository keeps exactly the same
palette color `colorFor 1`, because the skipped empty entry still
counts in the enumeration — so removing one repository's data does not
change the colors of repositories listed after it. -/
theorem claim_C10_counterexample :
    plottedSeries [(("r1"), [(dtA, 1)]), (("r2"), [(dtB, 1)])] =
      [(("r1"), [(dtA, 1)], colorFor 0), (("r2"), [(dtB, 1)], colorFor 1)] ∧
    wipeAt [(("r1"), [(dtA, 1)]), (("r2"), [(dtB, 1)])] 0 =
      [(("r1"), []), (("r2"), [(dtB, 1)])] ∧
    plottedSeries [(("r1"), []), (("r2"), [(dtB, 1)])] =
      [(("r2"), [(dtB, 1)], colorFor 1)] := by
  refine ⟨?_, ?_, ?_⟩ <;> decide

/-- Claim C10 as amended: the palette color of a plotted entry is
`COLORS[idx % 10]` where `idx` is the entry's position in the full
mapping, counting skipped empty entries; consequently emptying one
repository's series never changes the color of any other plotted
repository (in particular those listed after it) — their positions, and
hence colors, are unchanged. -/
theorem claim_C10 (rd : List (String × Series)) (i j : Nat)
    (hj : j < rd.length) (hne : j ≠ i)
    (hnonempty : (rd.get ⟨j, hj⟩).2 ≠ []) :
    colorFor j = COLORS.getD (j % COLORS.length) "" ∧
    ((rd.get ⟨j, hj⟩).1, (rd.get ⟨j, hj⟩).2, colorFor j) ∈ plottedSeries rd ∧
    (wipeAt rd i).length = rd.length ∧
    ∀ hj2 : j < (wipeAt rd i).length,
      (wipeAt rd i).get ⟨j, hj2⟩ = rd.get ⟨j, hj⟩ ∧
      ((rd.get ⟨j, hj⟩).1, (rd.get ⟨j, hj⟩).2, colorFor j) ∈
        plottedSeries (wipeAt rd i) := by
  refine ⟨rfl, plottedSeries_mem_of_get rd j hj hnonempty, wipeAt_length rd i, ?_⟩
  intro hj2
  have hg := wipeAt_get_ne rd i j hj hne hj2
  refine ⟨hg, ?_⟩
  have hm := plottedSeries_mem_of_get (wipeAt rd i) j hj2 (by rw [hg]; exact hnonempty)
  rw [hg] at hm
  exact hm

/-- Witness for the amended claim C10, at the counterexample's concrete
mapping: entry 1 keeps its color when entry 0 is emptied. -/
theorem claim_C10_witness :
    (1 < ([(("r1"), [(dtA, 1)]), (("r2"), [(dtB, 1)])] :
      List (String × Series)).length) ∧
    ((1 : Nat) ≠ 0) ∧
    (colorFor 1 = COLORS.getD (1 % COLORS.length) "" ∧
    ((([(("r1"), [(dtA, 1)]), (("r2"), [(dtB, 1)])] :
        List (String × Series)).get ⟨1, by decide⟩).1,
      (([(("r1"), [(dtA, 1)]), (("r2"), [(dtB, 1)])] :
        List (String × Series)).get ⟨1, by decide⟩).2, colorFor 1) ∈
      plottedSeries [(("r1"), [(dtA, 1)]), (("r2"), [(dtB, 1)])] ∧
    (wipeAt [(("r1"), [(dtA, 1)]), (("r2"), [(dtB, 1)])] 0).length =
      ([(("r1"), [(dtA, 1)]), (("r2"), [(dtB, 1)])] :
        List (String × Series)).length ∧
    ∀ hj2 : 1 < (wipeAt [(("r1"), [(dtA, 1)]), (("r2"), [(dtB, 1)])] 0).length,
      (wipeAt [(("r1"), [(dtA, 1)]), (("r2"), [(dtB, 1)])] 0).get ⟨1, hj2⟩ =
        ([(("r1"), [(dtA, 1)]), (("r2"), [(dtB, 1)])] :
          List (String × Series)).get ⟨1, by decide⟩ ∧
      ((([(("r1"), [(dtA, 1)]), (("r2"), [(dtB, 1)])] :
          List (String × Series)).get ⟨1, by decide⟩).1,
        (([(("r1"), [(dtA, 1)]), (("r2"), [(dtB, 1)])] :
          List (String × Series)).get ⟨1, by decide⟩).2, colorFor 1) ∈
        plottedSeries (wipeAt [(("r1"), [(dtA, 1)]), (("r2"), [(dtB, 1)])] 0)) :=
  ⟨by decide, by decide,
   claim_C10 [(("r1"), [(dtA, 1)]), (("r2"), [(dtB, 1)])] 0 1
     (by decide) (by decide) (by decide)⟩

end StarHistory
